import Mathlib

/-!
Verification development for the chat-jeept-gmail-extension repository.

The repository is a browser extension: a content script (content.js), two
background service-worker variants (the combined worker named BackgroundJS
below, and the modular worker that uses the extension/utils files), and
utility classes StorageManager, SiteScraper, LLMProvider and GmailDOM.
JavaScript strings are modelled as lists of characters (`Str`); machine
timestamps as `Nat` milliseconds; fallible operations return
`Except`/`Option`; the network is an oracle function passed explicitly.
Where the two duplicated variants of a class differ they are embedded
separately, in namespaces `SiteScrapeJS` (extension/utils/siteScrape.js) and
`BackgroundJS` (the combined background worker).

The file is laid out as definitions first, then theorems.
-/

set_option maxRecDepth 4000

/-! # Definitions -/

/-- A JavaScript string, modelled as its list of characters. -/
abbrev Str := List Char

/-- The characters JavaScript `String.prototype.trim` removes: WhiteSpace
(TAB, VT, FF, SP, NBSP, ZWNBSP and the Unicode Zs category) and
LineTerminator (LF, CR, LS, PS). -/
def isJsSpace (c : Char) : Bool :=
  c.toNat = 9 || c.toNat = 10 || c.toNat = 11 || c.toNat = 12 || c.toNat = 13 ||
  c.toNat = 32 || c.toNat = 160 || c.toNat = 5760 ||
  (8192 ≤ c.toNat && c.toNat ≤ 8202) ||
  c.toNat = 8232 || c.toNat = 8233 || c.toNat = 8239 || c.toNat = 8287 ||
  c.toNat = 12288 || c.toNat = 65279

/-- JavaScript `str.trim()`: strip leading and trailing whitespace. -/
def jsTrim (s : Str) : Str :=
  ((s.dropWhile isJsSpace).reverse.dropWhile isJsSpace).reverse

/-! ## StorageManager (identical in content-script utils and the combined worker)

The cache record written by `setSiteCache` is `{ text, updatedAt: Date.now() }`.
A stored record may lack the `updatedAt` field (modelled with `Option`), and
JavaScript truthiness makes `updatedAt = 0` behave like an absent field in
`isCacheExpired` (`!cache.updatedAt`). -/

structure CacheEntry where
  text : Str
  updatedAt : Option Nat
  deriving DecidableEq

namespace StorageJS

/-- Four hours in milliseconds, the TTL constant of `isCacheExpired`. -/
def fourHoursMs : Nat := 4 * 60 * 60 * 1000

/-- `StorageManager.isCacheExpired(cache)`:
`if (!cache || !cache.updatedAt) return true;
 return Date.now() - cache.updatedAt > fourHours;`
`Date.now()` is passed in as `now`; the subtraction is integer subtraction
as in JavaScript (a future timestamp gives a negative age). -/
def isCacheExpired (now : Nat) (cache : Option CacheEntry) : Bool :=
  match cache with
  | none => true
  | some c =>
    match c.updatedAt with
    | none => true
    | some u =>
      if u = 0 then true
      else decide ((now : Int) - (u : Int) > (fourHoursMs : Int))

end StorageJS

/-! ## SiteScraper

Both variants combine per-source text under a
`--- Content from <source> ---` delimiter, truncate at `maxTextLength` and
trim.  The per-source fetch (`fetchAndParseUrl`, network plus HTML
stripping) is an oracle `fetch : Str → Str`; the source code returns the
empty string for a failed fetch (its catch branches all `return ''` or
`resolve('')`), so `fetch u = []` models a failed source.  The parallel
`urlArray.map(url => fetchAndParseUrl(url.trim()))` followed by the index
loop is a pointwise fold over the url list: `contents[i]` is
`fetch (jsTrim urlArray[i])`. -/

/-- `this.maxTextLength = 6000` (token limit safety), set in both variants. -/
def maxTextLength : Nat := 6000

/-- One labelled section of the combined content:
``\n\n--- Content from ${url} ---\n\n`` followed by the source text.  Note
the url is the raw list entry, not the trimmed one passed to the fetch. -/
def sectionFor (url content : Str) : Str :=
  ( "\n\n--- Content from ".data) ++ url ++ ( " ---\n\n".data) ++ content

/-- The truncation step shared by both variants:
`if (combinedText.length > this.maxTextLength)
   combinedText = combinedText.substring(0, this.maxTextLength) + '...';` -/
def truncateStep (s : Str) : Str :=
  if maxTextLength < s.length then s.take maxTextLength ++ ( "...".data) else s

/-- A source counts as successful when its fetched text is nonempty
(`if (contents[i])` in the modular variant). -/
def succeedsOn (fetch : Str → Str) (u : Str) : Bool :=
  !(fetch (jsTrim u)).isEmpty

namespace SiteScrapeJS

/-- The combining loop of the modular `SiteScraper.fetchJeepBeachContent`
(extension/utils/siteScrape.js): a source contributes its delimited section
when its content is truthy (nonempty). -/
def combineContents (urls : List Str) (fetch : Str → Str) : Str :=
  urls.foldl (fun acc u =>
    let c := fetch (jsTrim u)
    if c = [] then acc else acc ++ sectionFor u c) []

/-- Modular `SiteScraper.fetchJeepBeachContent`: combine, truncate, trim.
This variant has no fallback when every source fails. -/
def fetchJeepBeachContent (urls : List Str) (fetch : Str → Str) : Str :=
  jsTrim (truncateStep (combineContents urls fetch))

end SiteScrapeJS

namespace BackgroundJS

/-- First slice of the static fallback template literal (the literal is cut
into five consecutive slices so that facts about it can be established
slice by slice; their concatenation `getFallbackJeepBeachContent` is the
exact text of the source). -/
def fallbackSlice1 : Str :=
  ( "Jeep Beach is an annual event held in Daytona Beach, Florida, featuring thousands of Jeep vehicles and enthusiasts.

EVENT INFORMATION:
- Jeep Beach is typically held in April each year
- The event takes place in Daytona Beach, Florida
- It features Jeep shows, vendors, beach driving, and social activities
- Registration is required for most activities
").data

/-- Second slice of the fallback template literal. -/
def fallbackSlice2 : Str :=
  ( "
FREQUENTLY ASKED QUESTIONS:
- When is Jeep Beach? Usually held in April, check the official website for exact dates
- Where is Jeep Beach? Daytona Beach, Florida
- Do I need to register? Yes, registration is required for most activities
").data

/-- Third slice of the fallback template literal. -/
def fallbackSlice3 : Str :=
  ( "- Can I drive on the beach? Yes, with proper registration and permits
- Are there age restrictions? Some activities may have age requirements

REGISTRATION:
- Online registration is available on the official website
- Early registration often provides discounts
").data

/-- Fourth slice of the fallback template literal. -/
def fallbackSlice4 : Str :=
  ( "- Registration includes access to most activities and events
- Some activities may require additional fees

EVENTS AND ACTIVITIES:
- Jeep show competitions
- Vendor booths and merchandise
- Beach driving (with permits)
- Social gatherings and meetups
").data

/-- Fifth slice of the fallback template literal. -/
def fallbackSlice5 : Str :=
  ( "- Awards ceremonies
- Live entertainment

CONTACT INFORMATION:
- Official website: jeepbeach.com
- For questions, contact through the website or social media
- Check the FAQ section for common questions and answers").data

/-- The static fallback text block
(`SiteScraper.getFallbackJeepBeachContent` in the combined worker), the
concatenation of the five slices of its template literal. -/
def getFallbackJeepBeachContent : Str :=
  fallbackSlice1 ++ fallbackSlice2 ++ fallbackSlice3 ++ fallbackSlice4 ++ fallbackSlice5

/-- The combining loop of the combined worker variant, which additionally
tracks `hasContent`; a source contributes when
`contents[i] && contents[i].trim().length > 0`. -/
def combineContents (urls : List Str) (fetch : Str → Str) : Str × Bool :=
  urls.foldl (fun p u =>
    let c := fetch (jsTrim u)
    if c ≠ [] ∧ 0 < (jsTrim c).length then (p.1 ++ sectionFor u c, true) else p)
    ([], false)

/-- Combined worker `SiteScraper.fetchJeepBeachContent`: combine; if no
source contributed (`!hasContent`), substitute the static fallback block;
truncate; trim. -/
def fetchJeepBeachContent (urls : List Str) (fetch : Str → Str) : Str :=
  let p := combineContents urls fetch
  jsTrim (truncateStep (if p.2 then p.1 else getFallbackJeepBeachContent))

end BackgroundJS

/-- Observable outcome of a `getJeepBeachContent` call: the returned text,
the stored cache entry afterwards, and the urls passed to the per-source
fetch (empty list = zero network fetches). -/
structure ScrapeOutcome where
  result : Str
  cacheAfter : Option CacheEntry
  fetchedUrls : List Str
  deriving DecidableEq

/-- Modular `SiteScraper.getJeepBeachContent(urls, forceRefresh)`:
unless forcing, a present and non-expired cache entry is returned verbatim
with no fetch and no write; otherwise fetch fresh content and store it
with a fresh timestamp. -/
def SiteScrapeJS.getJeepBeachContent (urls : List Str) (fetch : Str → Str)
    (now : Nat) (cache : Option CacheEntry) (forceRefresh : Bool) : ScrapeOutcome :=
  if forceRefresh = false ∧ cache.isSome ∧ StorageJS.isCacheExpired now cache = false then
    { result := (cache.getD ⟨[], none⟩).text, cacheAfter := cache, fetchedUrls := [] }
  else
    let content := SiteScrapeJS.fetchJeepBeachContent urls fetch
    { result := content, cacheAfter := some ⟨content, some now⟩,
      fetchedUrls := urls.map jsTrim }

/-- Combined worker `SiteScraper.getJeepBeachContent`: the body is
`return this.getFallbackJeepBeachContent();` — the cache and the url list
are ignored entirely, no fetch is issued, nothing is stored. -/
def BackgroundJS.getJeepBeachContent (_urls : List Str) (_fetch : Str → Str)
    (_now : Nat) (cache : Option CacheEntry) (_forceRefresh : Bool) : ScrapeOutcome :=
  { result := BackgroundJS.getFallbackJeepBeachContent, cacheAfter := cache,
    fetchedUrls := [] }

/-- Fetch oracle for the C5 counterexample: source `b` fails, source `c`
yields a 7000-character text, source `z` yields text containing `z`. -/
def c5Fetch : Str → Str := fun u =>
  if u = ( "c".data) then List.replicate 7000 'a'
  else if u = ( "z".data) then ( "z content".data)
  else []

/-! ## LLMProvider (identical in extension/utils/llm.js and the combined worker)

`extractDraftFromResponse` walks the parsed JSON: absent/empty `choices`
throw `Invalid LLM response`; the first choice's text is
`choice.message?.content || choice.text || ''`; an empty-after-trim text
throws `Empty response from LLM`; otherwise the trimmed text is returned.
`callLLM` throws `LLM API error: <status> - <detail>` on a non-ok HTTP
response. -/

structure ChoiceMessage where
  content : Option Str
  deriving DecidableEq

structure LLMChoice where
  message : Option ChoiceMessage
  text : Option Str
  deriving DecidableEq

structure LLMResponse where
  choices : Option (List LLMChoice)
  deriving DecidableEq

namespace LLMJS

/-- The error text of the absent-or-empty-choices branch. -/
def invalidResponseMsg : Str := ( "Invalid LLM response").data

/-- The error text of the empty-after-trim branch. -/
def emptyResponseMsg : Str := ( "Empty response from LLM").data

/-- The error text `callLLM` throws on a non-ok HTTP response:
`LLM API error: ${response.status} - ${detail}`, the detail being the
parsed error body or the status text. -/
def llmApiErrorMsg (status : Nat) (detail : Str) : Str :=
  ( "LLM API error: ").data ++ (toString status).data ++ ( " - ").data ++ detail

/-- JavaScript `choice.message?.content || choice.text || ''`: the first
present and nonempty alternative, else the empty string (an absent field
and an empty string are both falsy). -/
def jsChoiceContent (choice : LLMChoice) : Str :=
  let a := (choice.message.bind ChoiceMessage.content).getD []
  if a ≠ [] then a else choice.text.getD []

/-- `LLMProvider.extractDraftFromResponse(response)`. -/
def extractDraftFromResponse (response : Option LLMResponse) : Except Str Str :=
  match response with
  | none => .error invalidResponseMsg
  | some r =>
    match r.choices with
    | none => .error invalidResponseMsg
    | some [] => .error invalidResponseMsg
    | some (choice :: _) =>
      let content := jsChoiceContent choice
      if jsTrim content = [] then .error emptyResponseMsg
      else .ok (jsTrim content)

end LLMJS

/-! ## Content script (content.js): page agent state machine

State and effects of `JeepBeachContentScript`.  Effects record the
user-visible actions of one handler run: toasts, the single runtime message
dispatched to the background worker, and compose-surface edits.  The DOM
and settings lookups are snapshot in `PageEnv`. -/

structure AgentState where
  isProcessing : Bool
  buttonDisabled : Bool
  buttonText : Str
  deriving DecidableEq

inductive PageEffect where
  | toast (message : Str) (kind : Str)
  | sendDraftRequest (emailContext tone fallbackMessage jeepBeachUrls : Str)
      (useGmailApi : Bool) (threadId : Option Str)
  | clearCompose
  | insertDraft (draft : Str)
  deriving DecidableEq

structure PageEnv where
  composeBoxPresent : Bool
  lastInboundMessage : Option Str
  apiKey : Str
  tone : Str
  fallbackMessage : Str
  jeepBeachUrls : Str
  useGmailApi : Bool
  threadId : Option Str
  sendMessageSucceeds : Bool
  insertSucceeds : Bool
  deriving DecidableEq

namespace ContentJS

/-- The idle floating-button label restored by both result handlers. -/
def idleButtonText : Str := ( "ChatJeePeeTee").data

/-- JavaScript `a || d` for an optional string field: the field when
present and nonempty, else the default. -/
def jsOrDefault (a : Option Str) (d : Str) : Str :=
  match a with
  | some s => if s = [] then d else s
  | none => d

/-- `handleDraftError(request)`: reset `isProcessing` and the control, then
show `Error: <message>` (defaulting to `Unknown error occurred`). -/
def handleDraftError (error : Option Str) (_s : AgentState) :
    AgentState × List PageEffect :=
  (⟨false, false, idleButtonText⟩,
    [.toast (( "Error: ").data ++ jsOrDefault error ( "Unknown error occurred").data)
      ( "error").data])

/-- `handleDraftResponse(request)`: reset `isProcessing` and the control;
with a truthy draft, re-acquire the compose box, clear it and attempt the
insertion, toasting the outcome; otherwise warn. -/
def handleDraftResponse (env : PageEnv) (draft : Option Str) (_s : AgentState) :
    AgentState × List PageEffect :=
  let s1 : AgentState := ⟨false, false, idleButtonText⟩
  match draft with
  | some d =>
    if d = [] then (s1, [.toast ( "No draft generated").data ( "warning").data])
    else if env.composeBoxPresent then
      if env.insertSucceeds then
        (s1, [.clearCompose, .insertDraft d,
          .toast ( "Draft inserted successfully!").data ( "success").data])
      else
        (s1, [.clearCompose, .toast ( "Failed to insert draft").data ( "error").data])
    else (s1, [.toast ( "Compose box not found").data ( "error").data])
  | none => (s1, [.toast ( "No draft generated").data ( "warning").data])

/-- `handleDraftRequest()`: reject re-entrant invocations while a request
is in flight; otherwise mark the request in flight, disable and relabel the
control, gather compose box, context and settings (failing locally through
`handleDraftError`), and dispatch exactly one `JB_DRAFT_REQUEST` message
(synthesizing a local failure when the dispatch itself throws). -/
def handleDraftRequest (env : PageEnv) (s : AgentState) :
    AgentState × List PageEffect :=
  if s.isProcessing then
    (s, [.toast ( "Already processing a request...").data ( "warning").data])
  else
    let s1 : AgentState := ⟨true, true, ( "Generating...").data⟩
    if env.composeBoxPresent = false then
      handleDraftError (some ( "No compose box found").data) s1
    else
      match env.lastInboundMessage with
      | none => handleDraftError (some ( "No email context found").data) s1
      | some ctx =>
        if env.apiKey = [] then
          handleDraftError
            (some ( "API key not configured. Please set it in the extension options.").data) s1
        else if env.sendMessageSucceeds then
          (s1, [.sendDraftRequest ctx env.tone env.fallbackMessage env.jeepBeachUrls
            env.useGmailApi env.threadId])
        else
          handleDraftError
            (some ( "Extension context invalidated. Please reload the extension.").data) s1

end ContentJS

/-! ## Base64url decoding and its platform pieces

`decodeBase64Url` of the background worker substitutes the url-safe
alphabet back, re-pads, then runs `decodeURIComponent(escape(atob(str)))`.
`atob` (base64 to a byte-per-character string) and the
escape/decodeURIComponent pair (reinterpreting those bytes as UTF-8) are
browser built-ins; they are modelled by executable `atobBytes` and
`utf8Decode` below.  Bytes and code points are `Nat`. -/

namespace B64

/-- The standard base64 alphabet, index to character. -/
def b64CharOfSextet (s : Nat) : Char :=
  if s < 26 then Char.ofNat (65 + s)
  else if s < 52 then Char.ofNat (97 + (s - 26))
  else if s < 62 then Char.ofNat (48 + (s - 52))
  else if s = 62 then '+'
  else '/'

/-- The standard base64 alphabet, character to index. -/
def b64SextetOfChar (c : Char) : Option Nat :=
  if 65 ≤ c.toNat ∧ c.toNat ≤ 90 then some (c.toNat - 65)
  else if 97 ≤ c.toNat ∧ c.toNat ≤ 122 then some (26 + (c.toNat - 97))
  else if 48 ≤ c.toNat ∧ c.toNat ≤ 57 then some (52 + (c.toNat - 48))
  else if c = '+' then some 62
  else if c = '/' then some 63
  else none

/-- Bytes to base64 sextets, unpadded (grouping three bytes into four
sextets, with the standard one- and two-byte tails). -/
def b64EncodeBytes : List Nat → List Nat
  | [] => []
  | [b1] => [b1 / 4, b1 % 4 * 16]
  | [b1, b2] => [b1 / 4, b1 % 4 * 16 + b2 / 16, b2 % 16 * 4]
  | b1 :: b2 :: b3 :: rest =>
    b1 / 4 :: (b1 % 4 * 16 + b2 / 16) :: (b2 % 16 * 4 + b3 / 64) :: b3 % 64 ::
      b64EncodeBytes rest

/-- Base64 sextets back to bytes (four sextets to three bytes, with the
two- and three-sextet tails; a dangling single sextet yields nothing, as it
cannot encode a byte). -/
def b64DecodeSextets : List Nat → List Nat
  | [] => []
  | [_] => []
  | [s1, s2] => [s1 * 4 + s2 / 16]
  | [s1, s2, s3] => [s1 * 4 + s2 / 16, s2 % 16 * 16 + s3 / 4]
  | s1 :: s2 :: s3 :: s4 :: rest =>
    (s1 * 4 + s2 / 16) :: (s2 % 16 * 16 + s3 / 4) :: (s3 % 4 * 64 + s4) ::
      b64DecodeSextets rest

/-- Map base64 characters to sextets, failing on a character outside the
alphabet (as `atob` throws). -/
def charsToSextets : List Char → Option (List Nat)
  | [] => some []
  | c :: rest =>
    (b64SextetOfChar c).bind (fun s => (charsToSextets rest).map (fun tl => s :: tl))

/-- Model of the browser `atob` on its defined inputs: drop padding,
translate the alphabet, regroup sextets into bytes. -/
def atobBytes (cs : List Char) : Option (List Nat) :=
  (charsToSextets (cs.filter (fun c => decide (c ≠ '=')))).map b64DecodeSextets

/-- UTF-8 encoding of one code point (1 to 4 bytes). -/
def utf8EncodeChar (c : Nat) : List Nat :=
  if c < 128 then [c]
  else if c < 2048 then [192 + c / 64, 128 + c % 64]
  else if c < 65536 then [224 + c / 4096, 128 + c / 64 % 64, 128 + c % 64]
  else [240 + c / 262144, 128 + c / 4096 % 64, 128 + c / 64 % 64, 128 + c % 64]

/-- UTF-8 encoding of a code point sequence. -/
def utf8Encode (cps : List Nat) : List Nat :=
  (cps.map utf8EncodeChar).flatten

/-- UTF-8 decoding automaton, one byte per step.  The state is the pending
multi-byte sequence: `none` at a code-point boundary, `some (needed, acc)`
when `needed` continuation bytes are still required and `acc` is the value
accumulated so far.  A lead byte `110xxxxx`/`1110xxxx`/`11110xxx` opens a
2-, 3- or 4-byte sequence; each continuation byte must be `10xxxxxx`;
anything else is malformed and fails. -/
def utf8DecodeAux : Option (Nat × Nat) → List Nat → Option (List Nat)
  | none, [] => some []
  | some _, [] => none
  | none, b :: rest =>
    if b < 128 then (utf8DecodeAux none rest).map (fun tl => b :: tl)
    else if b < 192 then none
    else if b < 224 then utf8DecodeAux (some (1, b - 192)) rest
    else if b < 240 then utf8DecodeAux (some (2, b - 224)) rest
    else if b < 248 then utf8DecodeAux (some (3, b - 240)) rest
    else none
  | some (needed, acc), b :: rest =>
    if 128 ≤ b ∧ b < 192 then
      if needed = 1 then
        (utf8DecodeAux none rest).map (fun tl => (acc * 64 + (b - 128)) :: tl)
      else utf8DecodeAux (some (needed - 1, acc * 64 + (b - 128))) rest
    else none

/-- UTF-8 decoding of a byte sequence (the reinterpretation performed by
`decodeURIComponent(escape(bytes))`), failing on malformed input as
`decodeURIComponent` throws. -/
def utf8Decode (bs : List Nat) : Option (List Nat) :=
  utf8DecodeAux none bs

end B64

namespace GmailJS

/-- The two global `str.replace` substitutions of `decodeBase64Url`, per
character: the url-safe alphabet back to the standard one (every dash to a
plus, every underscore to a slash). -/
def b64urlUnsub (c : Char) : Char :=
  if c = '-' then '+' else if c = '_' then '/' else c

/-- The forward substitution of base64url encoding: `+`,`/` to `-`,`_`. -/
def b64urlSub (c : Char) : Char :=
  if c = '+' then '-' else if c = '/' then '_' else c

/-- `while (str.length % 4) str += '=';` — append `=` until the length is a
multiple of four. -/
def padEquals (cs : Str) : Str :=
  cs ++ List.replicate ((4 - cs.length % 4) % 4) '='

/-- `JeepBeachBackground.decodeBase64Url(str)`: substitute `-`,`_` back to
`+`,`/`, re-pad with `=`, then `decodeURIComponent(escape(atob(str)))` —
base64-decode to bytes and reinterpret them as UTF-8.  The catch branch
returns `str`, which at that point has already been substituted and
re-padded. -/
def decodeBase64Url (s : Str) : Str :=
  match B64.atobBytes (padEquals (s.map b64urlUnsub)) with
  | none => padEquals (s.map b64urlUnsub)
  | some bytes =>
    match B64.utf8Decode bytes with
    | none => padEquals (s.map b64urlUnsub)
    | some cps => cps.map Char.ofNat

/-- Base64url encoding as described by the claim (the encoder lives outside
this repository — the mail service produces the payloads): UTF-8 encode,
base64 with the standard alphabet, substitute `+`,`/` by `-`,`_`, padding
stripped (none emitted). -/
def encodeBase64Url (s : Str) : Str :=
  ((B64.b64EncodeBytes (B64.utf8Encode (s.map Char.toNat))).map
    B64.b64CharOfSextet).map b64urlSub

end GmailJS

/-! ## Gmail thread handling of the background worker -/

structure GmailMessage where
  id : Str
  labelIds : Option (List Str)
  deriving DecidableEq

structure MessagePart where
  mimeType : Str
  bodyData : Option Str
  deriving DecidableEq

structure MessagePayload where
  parts : Option (List MessagePart)
  bodyData : Option Str
  deriving DecidableEq

structure MessageData where
  payload : Option MessagePayload
  deriving DecidableEq

namespace GmailJS

/-- The label excluded by the inbound-message selection. -/
def sentLabel : Str := ( "SENT").data

/-- The eligibility test of the selection loop,
`message.labelIds && !message.labelIds.includes('SENT')`: the `labelIds`
field must be present (JavaScript truthiness: any array, also an empty one,
is truthy) and must not include `SENT`. -/
def inboundPred (m : GmailMessage) : Bool :=
  match m.labelIds with
  | some ls => decide (sentLabel ∉ ls)
  | none => false

/-- The selection loop of `fetchGmailContext`: iterate from the last thread
message backwards and take the first eligible message. -/
def selectInboundMessage (messages : List GmailMessage) : Option GmailMessage :=
  messages.reverse.find? inboundPred

/-- The part-scanning loop of `extractMessageBody`: the first part with a
truthy `body.data` and mimeType `text/plain` (decoded directly) or
`text/html` (decoded, then markup stripped) wins; the checks are made part
by part in payload order.  `strip` is the DOM-based `stripHtml`, an
oracle. -/
def scanParts (strip : Str → Str) : List MessagePart → Option Str
  | [] => none
  | p :: rest =>
    if p.mimeType = ( "text/plain").data ∧ p.bodyData.getD [] ≠ [] then
      some (decodeBase64Url (p.bodyData.getD []))
    else if p.mimeType = ( "text/html").data ∧ p.bodyData.getD [] ≠ [] then
      some (strip (decodeBase64Url (p.bodyData.getD [])))
    else scanParts strip rest

/-- The part eligibility test of the scanning loop: a truthy `body.data`
and mimeType `text/plain` or `text/html`. -/
def isTextPart (p : MessagePart) : Bool :=
  (decide (p.mimeType = ( "text/plain").data) ||
    decide (p.mimeType = ( "text/html").data)) &&
  decide (p.bodyData.getD [] ≠ [])

/-- How an eligible part is turned into a body: `text/plain` data is
decoded directly, anything else (`text/html`) is decoded and stripped. -/
def partBody (strip : Str → Str) (p : MessagePart) : Str :=
  if p.mimeType = ( "text/plain").data then decodeBase64Url (p.bodyData.getD [])
  else strip (decodeBase64Url (p.bodyData.getD []))

/-- `JeepBeachBackground.extractMessageBody(messageData)`: scan
`payload?.parts || []`; fall back to a truthy direct `payload?.body?.data`
(decoded and stripped), and finally to the fixed text
`No message body found`. -/
def extractMessageBody (strip : Str → Str) (md : MessageData) : Str :=
  let parts := (md.payload.bind MessagePayload.parts).getD []
  match scanParts strip parts with
  | some body => body
  | none =>
    let d := (md.payload.bind MessagePayload.bodyData).getD []
    if d ≠ [] then strip (decodeBase64Url d)
    else ( "No message body found").data

end GmailJS

/-! ## Background orchestration (combined worker `handleDraftRequest`) -/

structure BgSettings where
  apiKey : Str
  tone : Str
  fallbackMessage : Str
  jeepBeachUrls : List Str
  useGmailApi : Bool
  deriving DecidableEq

structure BgRequest where
  emailContext : Str
  threadId : Option Str
  deriving DecidableEq

/-- The single message `handleDraftRequest` pushes back to the originating
tab: `JB_DRAFT_RESPONSE {draft}` or `JB_DRAFT_ERROR {error}`. -/
inductive SentMessage where
  | draftResponse (draft : Str)
  | draftError (error : Str)
  deriving DecidableEq

/-- Observable outcome of one `handleDraftRequest` run: the email context
actually passed to the completion call, the reference text passed with it,
and the message sent back. -/
structure DraftRun where
  contextUsed : Str
  referenceUsed : Str
  sent : SentMessage
  deriving DecidableEq

namespace BackgroundJS

/-- `LLMProvider.generateDraft` with the network call abstracted: throws
`API key not configured` when the key is missing (falsy), otherwise the
completion `llm` oracle maps the varying prompt inputs (email context,
reference text) to the extracted draft or a thrown error message. -/
def generateDraft (apiKey : Str) (llm : Str → Str → Except Str Str)
    (emailContext jeepBeachText : Str) : Except Str Str :=
  if apiKey = [] then .error ( "API key not configured").data
  else llm emailContext jeepBeachText

/-- `JeepBeachBackground.handleDraftRequest` of the combined worker:
resolve settings; when `useGmailApi` is set and the request carries a
thread id, try the Gmail lookup (`gmailFetch` is its outcome) and fall back
silently to the page-supplied context if it failed; resolve reference
content through the scraper (whose combined-worker variant always returns
the static fallback, so its surrounding try/catch cannot fire); generate
the draft; send exactly one response or error message to the tab. -/
def handleDraftRequest (settings : BgSettings) (request : BgRequest)
    (gmailFetch : Except Str Str) (fetch : Str → Str) (now : Nat)
    (cache : Option CacheEntry) (llm : Str → Str → Except Str Str) : DraftRun :=
  let emailContext :=
    if settings.useGmailApi ∧ request.threadId.isSome then
      match gmailFetch with
      | .ok ctx => ctx
      | .error _ => request.emailContext
    else request.emailContext
  let jeepBeachContent :=
    (BackgroundJS.getJeepBeachContent settings.jeepBeachUrls fetch now cache false).result
  match generateDraft settings.apiKey llm emailContext jeepBeachContent with
  | .ok draft => ⟨emailContext, jeepBeachContent, .draftResponse draft⟩
  | .error e => ⟨emailContext, jeepBeachContent, .draftError e⟩

end BackgroundJS

/-! # Theorems -/

theorem jsTrim_length_le (s : Str) : (jsTrim s).length ≤ s.length := by
  unfold jsTrim
  calc ((s.dropWhile isJsSpace).reverse.dropWhile isJsSpace).reverse.length
      = ((s.dropWhile isJsSpace).reverse.dropWhile isJsSpace).length :=
        List.length_reverse ..
    _ ≤ (s.dropWhile isJsSpace).reverse.length :=
        (List.dropWhile_suffix _).sublist.length_le
    _ = (s.dropWhile isJsSpace).length := List.length_reverse ..
    _ ≤ s.length := (List.dropWhile_suffix _).sublist.length_le

/-! ### C1 — TTL boundary of the cache expiry check -/

/-- C1 counterexample: the claim says an entry whose age is exactly the TTL
(4 hours) is treated as expired.  At `now = fourHoursMs + 1` and
`updatedAt = 1` the age is exactly the TTL, yet `isCacheExpired` returns
`false` (the comparison is strict `>`), so the entry is served as valid. -/
theorem c1_ttl_boundary_counterexample :
    ((StorageJS.fourHoursMs + 1 : Int) - (1 : Int) = (StorageJS.fourHoursMs : Int)) ∧
    StorageJS.isCacheExpired (StorageJS.fourHoursMs + 1) (some ⟨[], some 1⟩) = false := by
  constructor
  · simp
  · decide

/-- C1 (amended): an entry whose age is exactly the TTL is treated as still
valid — the boundary is inclusive, `isCacheExpired` returns `true` only when
`now - updatedAt` strictly exceeds the TTL; an absent entry, or an entry
whose `updatedAt` field is missing (or `0`, which JavaScript truthiness
conflates with missing), is always treated as expired. -/
theorem c1_cache_expiry_boundary (now u : Nat) (t : Str)
    (hu : u ≠ 0) (hage : (now : Int) - (u : Int) = (StorageJS.fourHoursMs : Int)) :
    StorageJS.isCacheExpired now (some ⟨t, some u⟩) = false ∧
    (∀ m, StorageJS.isCacheExpired m none = true) ∧
    (∀ m t2, StorageJS.isCacheExpired m (some ⟨t2, none⟩) = true) := by
  refine ⟨?_, fun m => rfl, fun m t2 => rfl⟩
  simp only [StorageJS.isCacheExpired, hu, if_false, hage]
  simp

/-- C1 witness: the amended theorem applied at `now = fourHoursMs + 5`,
`updatedAt = 5`, an age of exactly four hours. -/
theorem c1_cache_expiry_boundary_witness :
    StorageJS.isCacheExpired (StorageJS.fourHoursMs + 5) (some ⟨[], some 5⟩) = false :=
  (c1_cache_expiry_boundary (StorageJS.fourHoursMs + 5) 5 [] (by decide)
    (by simp [StorageJS.fourHoursMs])).1

/-! ### Helper lemmas about the combining folds -/

/-- A fold whose step fixes the accumulator on every list element returns the
accumulator unchanged. -/
theorem foldl_fixed {α β : Type} (f : β → α → β) (l : List α)
    (h : ∀ b a, a ∈ l → f b a = b) : ∀ b, l.foldl f b = b := by
  induction l with
  | nil => intro b; rfl
  | cons a rest ih =>
    intro b
    rw [List.foldl_cons, h b a (by simp)]
    exact ih (fun b2 a2 ha2 => h b2 a2 (by simp [ha2])) b

/-- The modular combining loop, with its accumulator generalised, equals the
concatenation of the successful sources' labelled sections in list order. -/
theorem sitescrape_foldl_sections (fetch : Str → Str) (urls : List Str) :
    ∀ acc : Str,
      urls.foldl (fun acc u =>
        let c := fetch (jsTrim u)
        if c = [] then acc else acc ++ sectionFor u c) acc
      = acc ++ ((urls.filter (succeedsOn fetch)).map
          (fun u => sectionFor u (fetch (jsTrim u)))).flatten := by
  induction urls with
  | nil => intro acc; simp
  | cons u rest ih =>
    intro acc
    by_cases hc : fetch (jsTrim u) = []
    · have hs : succeedsOn fetch u = false := by simp [succeedsOn, hc]
      simp only [List.foldl_cons, hc, if_pos rfl, List.filter_cons, hs]
      exact ih acc
    · have hs : succeedsOn fetch u = true := by
        simp [succeedsOn, List.isEmpty_iff, hc]
      simp only [List.foldl_cons, if_neg hc, List.filter_cons, hs, if_true,
        List.map_cons, List.flatten_cons]
      rw [ih (acc ++ sectionFor u (fetch (jsTrim u))), List.append_assoc]

/-- The modular combined text is the flattened list of successful sections. -/
theorem sitescrape_combine_eq_sections (urls : List Str) (fetch : Str → Str) :
    SiteScrapeJS.combineContents urls fetch
      = ((urls.filter (succeedsOn fetch)).map
          (fun u => sectionFor u (fetch (jsTrim u)))).flatten := by
  have h := sitescrape_foldl_sections fetch urls []
  simpa [SiteScrapeJS.combineContents] using h

/-- When every source fails, the modular combining loop yields the empty
string. -/
theorem sitescrape_combine_all_fail (urls : List Str) (fetch : Str → Str)
    (hall : ∀ u ∈ urls, fetch (jsTrim u) = []) :
    SiteScrapeJS.combineContents urls fetch = [] := by
  unfold SiteScrapeJS.combineContents
  exact foldl_fixed _ urls (fun b u hu => by simp [hall u hu]) []

/-- When every source fails, the combined worker loop yields
`("", hasContent = false)`. -/
theorem background_combine_all_fail (urls : List Str) (fetch : Str → Str)
    (hall : ∀ u ∈ urls, fetch (jsTrim u) = []) :
    BackgroundJS.combineContents urls fetch = ([], false) := by
  unfold BackgroundJS.combineContents
  exact foldl_fixed _ urls (fun b u hu => by simp [hall u hu]) ([], false)

/-- Appending anything to a list that `dropWhile` leaves whole is still left
whole: the head already fails the predicate. -/
theorem dropWhile_append_of_self {p : Char → Bool} {A B : Str}
    (hA : A.dropWhile p = A) (hne : A ≠ []) :
    (A ++ B).dropWhile p = A ++ B := by
  cases A with
  | nil => exact absurd rfl hne
  | cons a as =>
    have hpa : p a = false := by
      by_contra hp
      have hp2 : p a = true := by revert hp; cases p a <;> simp
      rw [List.dropWhile_cons, hp2] at hA
      simp only [if_true] at hA
      have hlen := congrArg List.length hA
      have hle : (as.dropWhile p).length ≤ as.length :=
        (List.dropWhile_suffix p).sublist.length_le
      simp only [List.length_cons] at hlen
      omega
    rw [List.cons_append, List.dropWhile_cons, hpa]
    simp

/-- The fallback block in right-associated form. -/
theorem fallback_assoc :
    BackgroundJS.getFallbackJeepBeachContent
      = BackgroundJS.fallbackSlice1 ++ (BackgroundJS.fallbackSlice2 ++
        (BackgroundJS.fallbackSlice3 ++ (BackgroundJS.fallbackSlice4 ++
          BackgroundJS.fallbackSlice5))) := by
  simp [BackgroundJS.getFallbackJeepBeachContent, List.append_assoc]

/-- The fallback block fits under the 6000-character truncation bound. -/
theorem fallback_length_le :
    BackgroundJS.getFallbackJeepBeachContent.length ≤ maxTextLength := by
  have h1 : BackgroundJS.fallbackSlice1.length ≤ 400 := by decide
  have h2 : BackgroundJS.fallbackSlice2.length ≤ 400 := by decide
  have h3 : BackgroundJS.fallbackSlice3.length ≤ 400 := by decide
  have h4 : BackgroundJS.fallbackSlice4.length ≤ 400 := by decide
  have h5 : BackgroundJS.fallbackSlice5.length ≤ 400 := by decide
  have := congrArg List.length fallback_assoc
  simp only [List.length_append] at this
  rw [this]
  unfold maxTextLength
  omega

/-- The fallback block carries no leading or trailing whitespace, so
`trim` leaves it unchanged. -/
theorem fallback_trimmed :
    jsTrim BackgroundJS.getFallbackJeepBeachContent
      = BackgroundJS.getFallbackJeepBeachContent := by
  have hd : BackgroundJS.getFallbackJeepBeachContent.dropWhile isJsSpace
      = BackgroundJS.getFallbackJeepBeachContent := by
    rw [fallback_assoc]
    apply dropWhile_append_of_self
    · decide
    · decide
  have hrev : BackgroundJS.getFallbackJeepBeachContent.reverse
      = BackgroundJS.fallbackSlice5.reverse ++ (BackgroundJS.fallbackSlice4.reverse ++
        (BackgroundJS.fallbackSlice3.reverse ++ (BackgroundJS.fallbackSlice2.reverse ++
          BackgroundJS.fallbackSlice1.reverse))) := by
    rw [fallback_assoc]
    simp [List.reverse_append, List.append_assoc]
  have hd2 : BackgroundJS.getFallbackJeepBeachContent.reverse.dropWhile isJsSpace
      = BackgroundJS.getFallbackJeepBeachContent.reverse := by
    rw [hrev]
    apply dropWhile_append_of_self
    · decide
    · decide
  unfold jsTrim
  rw [hd, hd2, List.reverse_reverse]

/-- The static fallback block is under the truncation bound and is already
trimmed, so the tail of `fetchJeepBeachContent` returns it verbatim. -/
theorem background_fallback_fixed :
    jsTrim (truncateStep BackgroundJS.getFallbackJeepBeachContent)
      = BackgroundJS.getFallbackJeepBeachContent := by
  unfold truncateStep
  rw [if_neg (Nat.not_lt.mpr fallback_length_le)]
  exact fallback_trimmed

/-! ### C2 — all sources fail -/

/-- C2 counterexample: in the modular variant
(extension/utils/siteScrape.js), a source list whose single source fails
makes `fetchJeepBeachContent` return the empty string, not the static
fallback block — the claim fails on that variant of the aggregation. -/
theorem c2_all_fail_counterexample :
    SiteScrapeJS.fetchJeepBeachContent [( "u".data)] (fun _ => []) = [] ∧
    ([] : Str) ≠ BackgroundJS.getFallbackJeepBeachContent := by
  constructor
  · decide
  · decide

/-- C2 (amended): when every per-source fetch yields empty text, the
combined background worker's aggregation returns the built-in static
fallback text block, never an empty string; the modular SiteScraper variant
(extension/utils/siteScrape.js) instead returns the empty string. -/
theorem c2_all_sources_fail (urls : List Str) (fetch : Str → Str)
    (hall : ∀ u ∈ urls, fetch (jsTrim u) = []) :
    BackgroundJS.fetchJeepBeachContent urls fetch
      = BackgroundJS.getFallbackJeepBeachContent ∧
    SiteScrapeJS.fetchJeepBeachContent urls fetch = [] := by
  constructor
  · unfold BackgroundJS.fetchJeepBeachContent
    rw [background_combine_all_fail urls fetch hall]
    exact background_fallback_fixed
  · unfold SiteScrapeJS.fetchJeepBeachContent
    rw [sitescrape_combine_all_fail urls fetch hall]
    decide

/-- C2 witness: the amended theorem at the one-source list `["a"]` with a
fetch that always fails. -/
theorem c2_all_sources_fail_witness :
    BackgroundJS.fetchJeepBeachContent [( "a".data)] (fun _ => [])
      = BackgroundJS.getFallbackJeepBeachContent ∧
    SiteScrapeJS.fetchJeepBeachContent [( "a".data)] (fun _ => []) = [] :=
  c2_all_sources_fail [( "a".data)] (fun _ => []) (fun _ _ => rfl)

/-! ### C3 — fresh cache entry is served verbatim with no fetch -/

/-- C3 counterexample: in the combined background worker,
`getJeepBeachContent` ignores the cache entirely — with a fresh entry whose
text is `"hello"` present, it still returns the static fallback block, not
the entry text. -/
theorem c3_cache_hit_counterexample :
    StorageJS.isCacheExpired 1 (some ⟨( "hello".data), some 1⟩) = false ∧
    (BackgroundJS.getJeepBeachContent [] (fun _ => []) 1
        (some ⟨( "hello".data), some 1⟩) false).result ≠ ( "hello".data) := by
  constructor
  · decide
  · intro h
    have h2 := congrArg (fun l => List.take 2 l) h
    revert h2
    decide

/-- C3 (amended): in the modular SiteScraper variant
(extension/utils/siteScrape.js), `getJeepBeachContent` without forceRefresh
and with a fresh (non-expired) cache entry returns that entry's text
unchanged, issues zero fetches and leaves the stored entry unmodified.  The
combined background worker's variant instead ignores the cache and always
returns the static fallback block (also with zero fetches and the cache
left unmodified). -/
theorem c3_cache_hit (urls : List Str) (fetch : Str → Str) (now : Nat)
    (entry : CacheEntry)
    (hfresh : StorageJS.isCacheExpired now (some entry) = false) :
    SiteScrapeJS.getJeepBeachContent urls fetch now (some entry) false
      = { result := entry.text, cacheAfter := some entry, fetchedUrls := [] } ∧
    (∀ force, BackgroundJS.getJeepBeachContent urls fetch now (some entry) force
      = { result := BackgroundJS.getFallbackJeepBeachContent,
          cacheAfter := some entry, fetchedUrls := [] }) := by
  constructor
  · unfold SiteScrapeJS.getJeepBeachContent
    rw [if_pos ⟨rfl, rfl, hfresh⟩]
    rfl
  · intro force
    rfl

/-- C3 witness: the amended theorem at a fresh entry stored one millisecond
ago. -/
theorem c3_cache_hit_witness :
    SiteScrapeJS.getJeepBeachContent [( "u".data)] (fun _ => ( "x".data)) 2
        (some ⟨( "t".data), some 1⟩) false
      = { result := ( "t".data), cacheAfter := some ⟨( "t".data), some 1⟩,
          fetchedUrls := [] } :=
  (c3_cache_hit [( "u".data)] (fun _ => ( "x".data)) 2 ⟨( "t".data), some 1⟩
    (by decide)).1

/-! ### C4 — truncation at the safety bound -/

/-- C4 counterexample: a reachable combined content string of length under
the bound is not returned untouched — the trailing `trim` strips the
leading blank lines of its first delimiter.  With one successful source the
combined text starts with two newline characters, and the returned text
differs from it. -/
theorem c4_truncation_counterexample :
    (SiteScrapeJS.combineContents [( "u".data)] (fun _ => ( "x".data))).length
        ≤ maxTextLength ∧
    SiteScrapeJS.fetchJeepBeachContent [( "u".data)] (fun _ => ( "x".data))
      ≠ SiteScrapeJS.combineContents [( "u".data)] (fun _ => ( "x".data)) := by
  constructor
  · decide
  · decide

/-- C4 (amended): the aggregation result is the combined content cut at the
6000-character safety bound — with the `...` marker appended exactly when
the bound was exceeded — and then trimmed of surrounding whitespace; in
particular the result never exceeds 6003 characters.  Content at or under
the bound is therefore returned whole except for the surrounding-whitespace
trim. -/
theorem c4_truncation (urls : List Str) (fetch : Str → Str) :
    SiteScrapeJS.fetchJeepBeachContent urls fetch
      = jsTrim ((SiteScrapeJS.combineContents urls fetch).take maxTextLength ++
          (if maxTextLength < (SiteScrapeJS.combineContents urls fetch).length
           then ( "...".data) else [])) ∧
    (SiteScrapeJS.fetchJeepBeachContent urls fetch).length ≤ maxTextLength + 3 := by
  constructor
  · unfold SiteScrapeJS.fetchJeepBeachContent truncateStep
    by_cases h : maxTextLength < (SiteScrapeJS.combineContents urls fetch).length
    · rw [if_pos h, if_pos h]
    · rw [if_neg h, if_neg h,
        List.take_of_length_le (Nat.le_of_not_lt h), List.append_nil]
  · unfold SiteScrapeJS.fetchJeepBeachContent
    refine le_trans (jsTrim_length_le _) ?_
    unfold truncateStep
    by_cases h : maxTextLength < (SiteScrapeJS.combineContents urls fetch).length
    · rw [if_pos h]
      have h3 : List.length ( "...".data) = 3 := by decide
      rw [List.length_append, List.length_take, h3]
      omega
    · rw [if_neg h]
      omega

/-! ### C5 — partial aggregation keeps exactly the successful sections -/

/-- Anything `trim` keeps was in the original string: `jsTrim` produces a
sublist. -/
theorem jsTrim_sublist (s : Str) : List.Sublist (jsTrim s) s := by
  unfold jsTrim
  have h2 : List.Sublist ((s.dropWhile isJsSpace).reverse.dropWhile isJsSpace)
      (s.dropWhile isJsSpace).reverse := (List.dropWhile_suffix _).sublist
  have h3 := h2.reverse
  rw [List.reverse_reverse] at h3
  exact h3.trans (List.dropWhile_suffix _).sublist

/-- C5 counterexample: sources `b` (fails), `c` (7000 characters of `a`)
and `z` (succeeds, text containing `z`).  The combined text exceeds the
6000-character bound inside the `c` section, so the successful `z` section
is cut away entirely: no `z` occurs anywhere in the aggregated result, even
though source `z` succeeded — the result does not contain all successful
sources' sections. -/
theorem c5_partial_counterexample :
    c5Fetch (jsTrim ( "b".data)) = [] ∧
    c5Fetch (jsTrim ( "z".data)) ≠ [] ∧
    'z' ∈ sectionFor ( "z".data) (c5Fetch (jsTrim ( "z".data))) ∧
    'z' ∉ SiteScrapeJS.fetchJeepBeachContent
        [( "b".data), ( "c".data), ( "z".data)] c5Fetch := by
  have hb : c5Fetch (jsTrim ( "b".data)) = [] := by decide
  have hz : c5Fetch (jsTrim ( "z".data)) = ( "z content".data) := by decide
  have hjc : jsTrim ( "c".data) = ( "c".data) := by decide
  have hc : c5Fetch (jsTrim ( "c".data)) = List.replicate 7000 'a' := by
    rw [hjc]
    simp only [c5Fetch]
    rw [if_pos trivial]
  have hie : (List.replicate 7000 'a').isEmpty = false := by
    rw [← Bool.not_eq_true, List.isEmpty_iff, List.replicate_eq_nil_iff]
    omega
  have hcomb : SiteScrapeJS.combineContents
      [( "b".data), ( "c".data), ( "z".data)] c5Fetch
      = sectionFor ( "c".data) (List.replicate 7000 'a') ++
        sectionFor ( "z".data) ( "z content".data) := by
    rw [sitescrape_combine_eq_sections]
    have hsb : succeedsOn c5Fetch ( "b".data) = false := by
      unfold succeedsOn
      rw [hb]
      rfl
    have hsc : succeedsOn c5Fetch ( "c".data) = true := by
      unfold succeedsOn
      rw [hc, hie]
      rfl
    have hsz : succeedsOn c5Fetch ( "z".data) = true := by
      unfold succeedsOn
      rw [hz]
      rfl
    rw [List.filter_cons, List.filter_cons, List.filter_cons]
    rw [hsb, hsc, hsz]
    simp only [List.filter_nil, if_false, if_true, Bool.false_eq_true,
      List.map_cons, List.map_nil, List.flatten_cons, List.flatten_nil]
    rw [hc, hz, List.append_nil]
  have hlsec : 6000 < (sectionFor ( "c".data) (List.replicate 7000 'a')).length := by
    unfold sectionFor
    have h1 : List.length ( "\n\n--- Content from ".data) = 19 := by decide
    have h2 : List.length ( " ---\n\n".data) = 6 := by decide
    have h3 : List.length ( "c".data) = 1 := by decide
    simp only [List.length_append, List.length_replicate, h1, h2, h3]
    omega
  have htake : (sectionFor ( "c".data) (List.replicate 7000 'a') ++
        sectionFor ( "z".data) ( "z content".data)).take maxTextLength
      = (sectionFor ( "c".data) (List.replicate 7000 'a')).take maxTextLength := by
    rw [List.take_append_eq_append_take]
    have h0 : maxTextLength -
        (sectionFor ( "c".data) (List.replicate 7000 'a')).length = 0 := by
      unfold maxTextLength
      omega
    rw [h0, List.take_zero, List.append_nil]
  have hgt : maxTextLength < (sectionFor ( "c".data) (List.replicate 7000 'a') ++
      sectionFor ( "z".data) ( "z content".data)).length := by
    rw [List.length_append]
    unfold maxTextLength
    omega
  have hres : SiteScrapeJS.fetchJeepBeachContent
      [( "b".data), ( "c".data), ( "z".data)] c5Fetch
      = jsTrim ((sectionFor ( "c".data) (List.replicate 7000 'a')).take
          maxTextLength ++ ( "...".data)) := by
    unfold SiteScrapeJS.fetchJeepBeachContent truncateStep
    rw [hcomb, if_pos hgt, htake]
  have hzc : 'z' ∉ sectionFor ( "c".data) (List.replicate 7000 'a') := by
    unfold sectionFor
    intro hmem
    simp only [List.mem_append] at hmem
    rcases hmem with ((h | h) | h) | h
    · revert h; decide
    · revert h; decide
    · revert h; decide
    · rw [List.mem_replicate] at h
      exact absurd h.2 (by decide)
  refine ⟨hb, ?_, ?_, ?_⟩
  · rw [hz]; decide
  · rw [hz]; decide
  · rw [hres]
    intro hmem
    have hmem2 := (jsTrim_sublist _).subset hmem
    rcases List.mem_append.mp hmem2 with h | h
    · exact hzc (List.take_subset _ _ h)
    · revert h; decide

/-- C5 (amended): with at least one failing and one succeeding source, and
the combined text within the 6000-character safety bound (beyond which
truncation may cut sections away), the aggregation result is exactly the
concatenation of the successful sources' labelled sections in source-list
order, trimmed of surrounding whitespace; failed sources are omitted and do
not fail the call (the function is total and returns normally). -/
theorem c5_partial_aggregation (urls : List Str) (fetch : Str → Str)
    (_hfail : ∃ u ∈ urls, fetch (jsTrim u) = [])
    (_hsucc : ∃ u ∈ urls, fetch (jsTrim u) ≠ [])
    (hlen : (SiteScrapeJS.combineContents urls fetch).length ≤ maxTextLength) :
    SiteScrapeJS.fetchJeepBeachContent urls fetch
      = jsTrim (((urls.filter (succeedsOn fetch)).map
          (fun u => sectionFor u (fetch (jsTrim u)))).flatten) := by
  unfold SiteScrapeJS.fetchJeepBeachContent truncateStep
  rw [if_neg (Nat.not_lt.mpr hlen), sitescrape_combine_eq_sections]

/-- C5 witness: two sources, `b` failing and `c` succeeding with text
`y`. -/
theorem c5_partial_aggregation_witness :
    (∃ u ∈ [( "b".data), ( "c".data)],
        (fun v => if v = ( "c".data) then ( "y".data) else ([] : Str)) (jsTrim u) = []) ∧
    (∃ u ∈ [( "b".data), ( "c".data)],
        (fun v => if v = ( "c".data) then ( "y".data) else ([] : Str)) (jsTrim u) ≠ []) ∧
    SiteScrapeJS.fetchJeepBeachContent [( "b".data), ( "c".data)]
        (fun v => if v = ( "c".data) then ( "y".data) else ([] : Str))
      = jsTrim ((([( "b".data), ( "c".data)].filter
          (succeedsOn (fun v => if v = ( "c".data) then ( "y".data) else ([] : Str)))).map
          (fun u => sectionFor u ((fun v => if v = ( "c".data) then ( "y".data) else ([] : Str))
            (jsTrim u)))).flatten) :=
  ⟨⟨( "b".data), by decide, by decide⟩,
   ⟨( "c".data), by decide, by decide⟩,
   c5_partial_aggregation _ _
     ⟨( "b".data), by decide, by decide⟩
     ⟨( "c".data), by decide, by decide⟩
     (by decide)⟩

/-! ### C7 — reentrancy guard of the page agent -/

/-- Both result handlers restore the idle control state: the first
component of `handleDraftResponse` is always the reset state. -/
theorem handleDraftResponse_fst (env : PageEnv) (draft : Option Str) (s : AgentState) :
    (ContentJS.handleDraftResponse env draft s).1
      = ⟨false, false, ContentJS.idleButtonText⟩ := by
  unfold ContentJS.handleDraftResponse
  rcases draft with _ | d
  · rfl
  · dsimp only
    split
    · rfl
    · split
      · split <;> rfl
      · rfl

/-- C7: while a request is in flight (`isProcessing`), a second
`handleDraftRequest` invocation is rejected locally: the state is returned
unchanged and the only effect is an `Already processing` warning toast — in
particular no `JB_DRAFT_REQUEST` message is dispatched, so at most one
request is ever outstanding; and every result, success or failure, resets
the in-flight flag and restores the control (enabled, idle label). -/
theorem c7_single_inflight_request (env : PageEnv) (s : AgentState)
    (h : s.isProcessing = true) :
    ContentJS.handleDraftRequest env s
      = (s, [.toast ( "Already processing a request...").data ( "warning").data]) ∧
    (∀ env2 draft s2,
      (ContentJS.handleDraftResponse env2 draft s2).1.isProcessing = false ∧
      (ContentJS.handleDraftResponse env2 draft s2).1.buttonDisabled = false ∧
      (ContentJS.handleDraftResponse env2 draft s2).1.buttonText
        = ContentJS.idleButtonText) ∧
    (∀ err s3,
      (ContentJS.handleDraftError err s3).1.isProcessing = false ∧
      (ContentJS.handleDraftError err s3).1.buttonDisabled = false ∧
      (ContentJS.handleDraftError err s3).1.buttonText = ContentJS.idleButtonText) := by
  refine ⟨?_, ?_, ?_⟩
  · unfold ContentJS.handleDraftRequest
    rw [if_pos h]
  · intro env2 draft s2
    rw [handleDraftResponse_fst]
    exact ⟨rfl, rfl, rfl⟩
  · intro err s3
    exact ⟨rfl, rfl, rfl⟩

/-- C7 witness: the guard theorem applied to a processing state. -/
theorem c7_single_inflight_request_witness :
    ContentJS.handleDraftRequest
        ⟨true, none, [], [], [], [], false, none, true, true⟩ ⟨true, true, []⟩
      = (⟨true, true, []⟩,
         [.toast ( "Already processing a request...").data ( "warning").data]) :=
  (c7_single_inflight_request
    ⟨true, none, [], [], [], [], false, none, true, true⟩ ⟨true, true, []⟩ rfl).1

/-! ### C8 — completion response parsing -/

/-- C8: a missing response, a missing `choices` field or an empty choices
list fail with the distinct `Invalid LLM response` error, which differs
from every network/HTTP error (`LLM API error: ...`); a first choice whose
extracted text is empty after trimming fails with `Empty response from
LLM`; otherwise the first choice's text is returned trimmed. -/
theorem c8_response_parsing :
    (LLMJS.extractDraftFromResponse none = .error LLMJS.invalidResponseMsg) ∧
    (∀ r : LLMResponse, r.choices = none ∨ r.choices = some [] →
      LLMJS.extractDraftFromResponse (some r) = .error LLMJS.invalidResponseMsg) ∧
    (∀ status detail, LLMJS.llmApiErrorMsg status detail ≠ LLMJS.invalidResponseMsg) ∧
    (∀ choice rest, jsTrim (LLMJS.jsChoiceContent choice) = [] →
      LLMJS.extractDraftFromResponse (some ⟨some (choice :: rest)⟩)
        = .error LLMJS.emptyResponseMsg) ∧
    (∀ choice rest, jsTrim (LLMJS.jsChoiceContent choice) ≠ [] →
      LLMJS.extractDraftFromResponse (some ⟨some (choice :: rest)⟩)
        = .ok (jsTrim (LLMJS.jsChoiceContent choice))) := by
  refine ⟨rfl, ?_, ?_, ?_, ?_⟩
  · intro r h
    rcases r with ⟨co⟩
    rcases co with _ | ⟨_ | ⟨c, cs⟩⟩
    · rfl
    · rfl
    · rcases h with h | h <;> simp at h
  · intro status detail h
    simp only [LLMJS.llmApiErrorMsg, LLMJS.invalidResponseMsg] at h
    simp at h
  · intro choice rest h
    unfold LLMJS.extractDraftFromResponse
    dsimp only
    rw [if_pos h]
  · intro choice rest h
    unfold LLMJS.extractDraftFromResponse
    dsimp only
    rw [if_neg h]

/-- C8 witness: the parsing theorem at an empty choices list, a
whitespace-only choice, and a padded draft choice. -/
theorem c8_response_parsing_witness :
    LLMJS.extractDraftFromResponse (some ⟨some []⟩)
      = .error LLMJS.invalidResponseMsg ∧
    LLMJS.extractDraftFromResponse
        (some ⟨some [⟨some ⟨some ( " ".data)⟩, none⟩]⟩)
      = .error LLMJS.emptyResponseMsg ∧
    LLMJS.extractDraftFromResponse
        (some ⟨some [⟨some ⟨some ( " hi ".data)⟩, none⟩]⟩)
      = .ok ( "hi".data) := by
  refine ⟨c8_response_parsing.2.1 ⟨some []⟩ (Or.inr rfl), ?_, ?_⟩
  · exact c8_response_parsing.2.2.2.1 ⟨some ⟨some ( " ".data)⟩, none⟩ [] (by decide)
  · rw [c8_response_parsing.2.2.2.2 ⟨some ⟨some ( " hi ".data)⟩, none⟩ [] (by decide)]
    have h : jsTrim (LLMJS.jsChoiceContent ⟨some ⟨some ( " hi ".data)⟩, none⟩)
        = ( "hi".data) := by decide
    rw [h]

/-! ### C10 — silent fallback of the optional Gmail lookup -/

/-- C10: when `useGmailApi` is set and a thread id is present, a failed
Gmail lookup (whatever its error) leaves the run identical to one whose
lookup returned the page-supplied context: the draft pipeline continues on
`request.emailContext`, and the lookup error is never surfaced in the
message sent back to the page. -/
theorem c10_gmail_fallback (settings : BgSettings) (request : BgRequest)
    (e : Str) (fetch : Str → Str) (now : Nat) (cache : Option CacheEntry)
    (llm : Str → Str → Except Str Str)
    (hapi : settings.useGmailApi = true) (htid : request.threadId.isSome = true) :
    BackgroundJS.handleDraftRequest settings request (.error e) fetch now cache llm
      = BackgroundJS.handleDraftRequest settings request (.ok request.emailContext)
          fetch now cache llm ∧
    (BackgroundJS.handleDraftRequest settings request (.error e) fetch now cache
        llm).contextUsed = request.emailContext := by
  constructor
  · unfold BackgroundJS.handleDraftRequest
    rw [if_pos ⟨hapi, htid⟩]
  · unfold BackgroundJS.handleDraftRequest
    rw [if_pos ⟨hapi, htid⟩]
    dsimp only
    split <;> rfl

/-- C10 witness: the fallback theorem at a concrete failed lookup. -/
theorem c10_gmail_fallback_witness :
    BackgroundJS.handleDraftRequest ⟨( "k".data), [], [], [], true⟩
        ⟨( "page context".data), some ( "tid".data)⟩ (.error ( "boom".data))
        (fun _ => []) 0 none (fun _ _ => .ok ( "draft".data))
      = BackgroundJS.handleDraftRequest ⟨( "k".data), [], [], [], true⟩
          ⟨( "page context".data), some ( "tid".data)⟩ (.ok ( "page context".data))
          (fun _ => []) 0 none (fun _ _ => .ok ( "draft".data)) ∧
    (BackgroundJS.handleDraftRequest ⟨( "k".data), [], [], [], true⟩
        ⟨( "page context".data), some ( "tid".data)⟩ (.error ( "boom".data))
        (fun _ => []) 0 none (fun _ _ => .ok ( "draft".data))).contextUsed
      = ( "page context".data) :=
  c10_gmail_fallback ⟨( "k".data), [], [], [], true⟩
    ⟨( "page context".data), some ( "tid".data)⟩ ( "boom".data)
    (fun _ => []) 0 none (fun _ _ => .ok ( "draft".data)) rfl rfl

/-! ### C6 — selection of the inbound message and body extraction -/

/-- C6 counterexample.  Selection: in the thread `[m1, m2]` where `m1`
carries `INBOX` and `m2` has no `labelIds` field at all — so `m2` is the
most recent message and carries no `SENT` label — the code selects `m1`,
because a message without `labelIds` is skipped by the truthiness check.
Extraction: with an html part before a plain part, the body is the stripped
html text (`yo`, with `strip = id`), not the decoded `text/plain` text
(`hi`), although a `text/plain` part is present. -/
theorem c6_gmail_selection_counterexample :
    GmailJS.selectInboundMessage
        [⟨( "m1".data), some [( "INBOX".data)]⟩, ⟨( "m2".data), none⟩]
      = some ⟨( "m1".data), some [( "INBOX".data)]⟩ ∧
    (⟨( "m2".data), none⟩ : GmailMessage).labelIds = none ∧
    GmailJS.extractMessageBody id
        ⟨some ⟨some [⟨( "text/html").data, some ( "eW8".data)⟩,
          ⟨( "text/plain").data, some ( "aGk".data)⟩], none⟩⟩
      = ( "yo".data) ∧
    GmailJS.decodeBase64Url ( "aGk".data) = ( "hi".data) ∧
    ( "yo".data) ≠ ( "hi".data) := by
  refine ⟨by decide, rfl, by decide, by decide, by decide⟩

/-- C6 (amended): the message selected for body extraction is the most
recent message that has a `labelIds` field not containing `SENT` — a
message without `labelIds` is skipped even though it carries no label; the
body is taken from the first payload part in list order with truthy data
and mimeType `text/plain` (decoded) or `text/html` (decoded then stripped)
— so `text/plain` is preferred only over later parts, an earlier
`text/html` part wins. -/
theorem c6_gmail_selection (msgs pre post : List GmailMessage) (m : GmailMessage)
    (strip : Str → Str) (parts preP postP : List MessagePart) (p : MessagePart)
    (hm : msgs = pre ++ m :: post)
    (hmp : GmailJS.inboundPred m = true)
    (hpost : ∀ m2 ∈ post, GmailJS.inboundPred m2 = false)
    (hp : parts = preP ++ p :: postP)
    (hpp : GmailJS.isTextPart p = true)
    (hpre : ∀ q ∈ preP, GmailJS.isTextPart q = false) :
    GmailJS.selectInboundMessage msgs = some m ∧
    GmailJS.scanParts strip parts = some (GmailJS.partBody strip p) := by
  constructor
  · subst hm
    unfold GmailJS.selectInboundMessage
    rw [List.reverse_append, List.reverse_cons, List.find?_append, List.find?_append]
    have h2 : post.reverse.find? GmailJS.inboundPred = none :=
      List.find?_eq_none.mpr (fun x hx => by
        rw [hpost x (List.mem_reverse.mp hx)]
        exact Bool.false_ne_true)
    rw [h2, List.find?_cons_of_pos _ hmp]
    rfl
  · subst hp
    induction preP with
    | nil =>
      have hdata : p.bodyData.getD [] ≠ [] := by
        unfold GmailJS.isTextPart at hpp
        simp only [Bool.and_eq_true, decide_eq_true_eq] at hpp
        exact hpp.2
      by_cases hmime : p.mimeType = ( "text/plain").data
      · simp only [List.nil_append, GmailJS.scanParts]
        rw [if_pos ⟨hmime, hdata⟩]
        unfold GmailJS.partBody
        rw [if_pos hmime]
      · have hhtml : p.mimeType = ( "text/html").data := by
          unfold GmailJS.isTextPart at hpp
          simp only [Bool.and_eq_true, Bool.or_eq_true, decide_eq_true_eq] at hpp
          rcases hpp.1 with h | h
          · exact absurd h hmime
          · exact h
        simp only [List.nil_append, GmailJS.scanParts]
        rw [if_neg (fun hx => hmime hx.1), if_pos ⟨hhtml, hdata⟩]
        unfold GmailJS.partBody
        rw [if_neg hmime]
    | cons q rest ih =>
      have hq : GmailJS.isTextPart q = false := hpre q (by simp)
      have h1 : ¬(q.mimeType = ( "text/plain").data ∧ q.bodyData.getD [] ≠ []) := by
        intro hx
        simp [GmailJS.isTextPart, hx.1, hx.2] at hq
      have h2 : ¬(q.mimeType = ( "text/html").data ∧ q.bodyData.getD [] ≠ []) := by
        intro hx
        simp [GmailJS.isTextPart, hx.1, hx.2] at hq
      simp only [List.cons_append, GmailJS.scanParts]
      rw [if_neg h1, if_neg h2]
      exact ih (fun q2 hq2 => hpre q2 (by simp [hq2]))

/-- C6 witness: the amended theorem for a one-message thread (its label
list present and empty, hence eligible) and a single plain part. -/
theorem c6_gmail_selection_witness :
    GmailJS.selectInboundMessage [⟨( "a".data), some []⟩]
      = some ⟨( "a".data), some []⟩ ∧
    GmailJS.scanParts id [⟨( "text/plain").data, some ( "aGk".data)⟩]
      = some (GmailJS.partBody id ⟨( "text/plain").data, some ( "aGk".data)⟩) :=
  c6_gmail_selection [⟨( "a".data), some []⟩] [] [] ⟨( "a".data), some []⟩ id
    [⟨( "text/plain").data, some ( "aGk".data)⟩] [] []
    ⟨( "text/plain").data, some ( "aGk".data)⟩
    rfl (by decide) (by simp) rfl (by decide) (by simp)

/-! ### C9 — base64url round trip

The decoder under test is `GmailJS.decodeBase64Url`; the encoder follows
the claim's description of the mail service's encoding.  The round trip is
assembled from: UTF-8 bytes stay below 256; decoding inverts the per-code-
point encoding; base64 sextets stay below 64; regrouping sextets inverts
the byte grouping; and the alphabet, url-substitution and padding steps are
inverted pointwise. -/

/-- Every byte of a UTF-8 encoded code point is below 256. -/
theorem utf8EncodeChar_lt (c : Nat) (hc : c < 1114112) :
    ∀ b ∈ B64.utf8EncodeChar c, b < 256 := by
  intro b hb
  unfold B64.utf8EncodeChar at hb
  split_ifs at hb with h1 h2 h3
  · simp only [List.mem_singleton] at hb
    omega
  · simp only [List.mem_cons, List.not_mem_nil, or_false] at hb
    rcases hb with rfl | rfl <;> omega
  · simp only [List.mem_cons, List.not_mem_nil, or_false] at hb
    rcases hb with rfl | rfl | rfl <;> omega
  · simp only [List.mem_cons, List.not_mem_nil, or_false] at hb
    rcases hb with rfl | rfl | rfl | rfl <;> omega

/-- A byte below 128 decodes to itself and the automaton continues. -/
theorem aux_lead1 (b : Nat) (hb : b < 128) (rest : List Nat) :
    B64.utf8DecodeAux none (b :: rest)
      = (B64.utf8DecodeAux none rest).map (fun tl => b :: tl) := by
  simp only [B64.utf8DecodeAux]
  rw [if_pos hb]

/-- A two-byte lead opens a pending sequence with one byte required. -/
theorem aux_lead2 (b : Nat) (h1 : 192 ≤ b) (h2 : b < 224) (rest : List Nat) :
    B64.utf8DecodeAux none (b :: rest)
      = B64.utf8DecodeAux (some (1, b - 192)) rest := by
  simp only [B64.utf8DecodeAux]
  rw [if_neg (by omega), if_neg (by omega), if_pos h2]

/-- A three-byte lead opens a pending sequence with two bytes required. -/
theorem aux_lead3 (b : Nat) (h1 : 224 ≤ b) (h2 : b < 240) (rest : List Nat) :
    B64.utf8DecodeAux none (b :: rest)
      = B64.utf8DecodeAux (some (2, b - 224)) rest := by
  simp only [B64.utf8DecodeAux]
  rw [if_neg (by omega), if_neg (by omega), if_neg (by omega), if_pos h2]

/-- A four-byte lead opens a pending sequence with three bytes required. -/
theorem aux_lead4 (b : Nat) (h1 : 240 ≤ b) (h2 : b < 248) (rest : List Nat) :
    B64.utf8DecodeAux none (b :: rest)
      = B64.utf8DecodeAux (some (3, b - 240)) rest := by
  simp only [B64.utf8DecodeAux]
  rw [if_neg (by omega), if_neg (by omega), if_neg (by omega), if_neg (by omega),
    if_pos h2]

/-- The last required continuation byte completes the code point. -/
theorem aux_cont_last (needed acc b : Nat) (hn : needed = 1)
    (hb1 : 128 ≤ b) (hb2 : b < 192) (rest : List Nat) :
    B64.utf8DecodeAux (some (needed, acc)) (b :: rest)
      = (B64.utf8DecodeAux none rest).map (fun tl => (acc * 64 + (b - 128)) :: tl) := by
  subst hn
  simp only [B64.utf8DecodeAux]
  rw [if_pos ⟨hb1, hb2⟩]
  simp

/-- An intermediate continuation byte accumulates and decrements. -/
theorem aux_cont_more (needed acc b : Nat) (hn : needed ≠ 1)
    (hb1 : 128 ≤ b) (hb2 : b < 192) (rest : List Nat) :
    B64.utf8DecodeAux (some (needed, acc)) (b :: rest)
      = B64.utf8DecodeAux (some (needed - 1, acc * 64 + (b - 128))) rest := by
  simp only [B64.utf8DecodeAux]
  rw [if_pos ⟨hb1, hb2⟩, if_neg hn]

/-- Decoding inverts the per-code-point UTF-8 encoding. -/
theorem utf8DecodeAux_encodeChar (c : Nat) (hc : c < 1114112) (bs : List Nat) :
    B64.utf8DecodeAux none (B64.utf8EncodeChar c ++ bs)
      = (B64.utf8DecodeAux none bs).map (fun tl => c :: tl) := by
  unfold B64.utf8EncodeChar
  by_cases h1 : c < 128
  · rw [if_pos h1]
    simp only [List.cons_append, List.nil_append]
    rw [aux_lead1 c h1]
  · rw [if_neg h1]
    by_cases h2 : c < 2048
    · rw [if_pos h2]
      simp only [List.cons_append, List.nil_append]
      rw [aux_lead2 _ (by omega) (by omega),
        aux_cont_last 1 _ _ rfl (by omega) (by omega)]
      have he : (192 + c / 64 - 192) * 64 + (128 + c % 64 - 128) = c := by omega
      rw [he]
    · rw [if_neg h2]
      by_cases h3 : c < 65536
      · rw [if_pos h3]
        simp only [List.cons_append, List.nil_append]
        rw [aux_lead3 _ (by omega) (by omega),
          aux_cont_more 2 _ _ (by omega) (by omega) (by omega),
          aux_cont_last _ _ _ rfl (by omega) (by omega)]
        have he : ((224 + c / 4096 - 224) * 64 + (128 + c / 64 % 64 - 128)) * 64 +
            (128 + c % 64 - 128) = c := by omega
        rw [he]
      · rw [if_neg h3]
        simp only [List.cons_append, List.nil_append]
        rw [aux_lead4 _ (by omega) (by omega),
          aux_cont_more 3 _ _ (by omega) (by omega) (by omega),
          aux_cont_more _ _ _ (by omega) (by omega) (by omega),
          aux_cont_last _ _ _ rfl (by omega) (by omega)]
        have he : (((240 + c / 262144 - 240) * 64 + (128 + c / 4096 % 64 - 128)) * 64 +
            (128 + c / 64 % 64 - 128)) * 64 + (128 + c % 64 - 128) = c := by omega
        rw [he]

/-- Decoding inverts UTF-8 encoding on every valid code point sequence. -/
theorem utf8Decode_utf8Encode (cps : List Nat) (h : ∀ c ∈ cps, c < 1114112) :
    B64.utf8Decode (B64.utf8Encode cps) = some cps := by
  unfold B64.utf8Decode
  induction cps with
  | nil => rfl
  | cons c rest ih =>
    simp only [B64.utf8Encode, List.map_cons, List.flatten_cons]
    have hface : B64.utf8Encode rest = (rest.map B64.utf8EncodeChar).flatten := rfl
    rw [utf8DecodeAux_encodeChar c (h c (by simp)) _, ← hface,
      ih (fun x hx => h x (by simp [hx]))]
    rfl

/-- Every sextet produced by the byte grouping is below 64. -/
theorem b64EncodeBytes_lt (bs : List Nat) (h : ∀ b ∈ bs, b < 256) :
    ∀ x ∈ B64.b64EncodeBytes bs, x < 64 := by
  induction bs using B64.b64EncodeBytes.induct with
  | case1 =>
    intro x hx
    simp [B64.b64EncodeBytes] at hx
  | case2 b1 =>
    have hb1 : b1 < 256 := h b1 (by simp)
    intro x hx
    simp only [B64.b64EncodeBytes, List.mem_cons, List.mem_singleton,
      List.not_mem_nil, or_false] at hx
    rcases hx with rfl | rfl <;> omega
  | case3 b1 b2 =>
    have hb1 : b1 < 256 := h b1 (by simp)
    have hb2 : b2 < 256 := h b2 (by simp)
    intro x hx
    simp only [B64.b64EncodeBytes, List.mem_cons, List.mem_singleton,
      List.not_mem_nil, or_false] at hx
    rcases hx with rfl | rfl | rfl <;> omega
  | case4 b1 b2 b3 rest ih =>
    have hb1 : b1 < 256 := h b1 (by simp)
    have hb2 : b2 < 256 := h b2 (by simp)
    have hb3 : b3 < 256 := h b3 (by simp)
    have hrest : ∀ b ∈ rest, b < 256 := fun b hb => h b (by simp [hb])
    intro x hx
    simp only [B64.b64EncodeBytes, List.mem_cons] at hx
    rcases hx with rfl | rfl | rfl | rfl | hx
    · omega
    · omega
    · omega
    · omega
    · exact ih hrest x hx

/-- Regrouping sextets into bytes inverts the byte grouping. -/
theorem b64Decode_b64Encode (bs : List Nat) (h : ∀ b ∈ bs, b < 256) :
    B64.b64DecodeSextets (B64.b64EncodeBytes bs) = bs := by
  induction bs using B64.b64EncodeBytes.induct with
  | case1 => rfl
  | case2 b1 =>
    have hb1 : b1 < 256 := h b1 (by simp)
    simp only [B64.b64EncodeBytes, B64.b64DecodeSextets, List.cons.injEq, and_true]
    omega
  | case3 b1 b2 =>
    have hb1 : b1 < 256 := h b1 (by simp)
    have hb2 : b2 < 256 := h b2 (by simp)
    simp only [B64.b64EncodeBytes, B64.b64DecodeSextets, List.cons.injEq, and_true]
    omega
  | case4 b1 b2 b3 rest ih =>
    have hb1 : b1 < 256 := h b1 (by simp)
    have hb2 : b2 < 256 := h b2 (by simp)
    have hb3 : b3 < 256 := h b3 (by simp)
    have hrest : ∀ b ∈ rest, b < 256 := fun b hb => h b (by simp [hb])
    simp only [B64.b64EncodeBytes, B64.b64DecodeSextets, List.cons.injEq]
    refine ⟨by omega, by omega, by omega, ih hrest⟩

/-- For every sextet, the alphabet and the url substitution invert
pointwise, and the produced character is never the padding `=`. -/
theorem b64Char_props : ∀ s, s < 64 →
    B64.b64SextetOfChar (B64.b64CharOfSextet s) = some s ∧
    GmailJS.b64urlUnsub (GmailJS.b64urlSub (B64.b64CharOfSextet s))
      = B64.b64CharOfSextet s ∧
    B64.b64CharOfSextet s ≠ '=' := by
  decide

/-- Reading the alphabet back inverts writing it. -/
theorem charsToSextets_map (ss : List Nat) (h : ∀ x ∈ ss, x < 64) :
    B64.charsToSextets (ss.map B64.b64CharOfSextet) = some ss := by
  induction ss with
  | nil => rfl
  | cons t rest ih =>
    simp only [List.map_cons, B64.charsToSextets]
    rw [(b64Char_props t (h t (by simp))).1,
      ih (fun x hx => h x (by simp [hx]))]
    rfl

/-- C9: for every plaintext string — non-ASCII characters included — the
base64url encoding described by the spec (UTF-8 bytes, standard base64,
`+`,`/` substituted by `-`,`_`, padding stripped), decoded by the
background worker's `decodeBase64Url`, reproduces the original text
exactly. -/
theorem c9_base64url_roundtrip (s : Str) :
    GmailJS.decodeBase64Url (GmailJS.encodeBase64Url s) = s := by
  have hcps : ∀ c ∈ s.map Char.toNat, c < 1114112 := by
    intro c hc
    rcases List.mem_map.mp hc with ⟨ch, _, rfl⟩
    have he : ch.toNat = ch.val.toNat := rfl
    rcases ch.valid with h | h <;> omega
  have hbytes : ∀ b ∈ B64.utf8Encode (s.map Char.toNat), b < 256 := by
    intro b hb
    unfold B64.utf8Encode at hb
    rcases List.mem_flatten.mp hb with ⟨l, hl, hbl⟩
    rcases List.mem_map.mp hl with ⟨c, hc, rfl⟩
    exact utf8EncodeChar_lt c (hcps c hc) b hbl
  have hsex : ∀ x ∈ B64.b64EncodeBytes (B64.utf8Encode (s.map Char.toNat)), x < 64 :=
    b64EncodeBytes_lt _ hbytes
  have hmapsub : (GmailJS.encodeBase64Url s).map GmailJS.b64urlUnsub
      = (B64.b64EncodeBytes (B64.utf8Encode (s.map Char.toNat))).map
          B64.b64CharOfSextet := by
    unfold GmailJS.encodeBase64Url
    rw [List.map_map]
    have hcong : ∀ x ∈ (B64.b64EncodeBytes (B64.utf8Encode (s.map Char.toNat))).map
        B64.b64CharOfSextet,
        (GmailJS.b64urlUnsub ∘ GmailJS.b64urlSub) x = id x := by
      intro x hx
      rcases List.mem_map.mp hx with ⟨t, ht, rfl⟩
      exact (b64Char_props t (hsex t ht)).2.1
    rw [List.map_congr_left hcong, List.map_id]
  have hne : ∀ x ∈ (B64.b64EncodeBytes (B64.utf8Encode (s.map Char.toNat))).map
      B64.b64CharOfSextet, decide (x ≠ '=') = true := by
    intro x hx
    rcases List.mem_map.mp hx with ⟨t, ht, rfl⟩
    simpa using (b64Char_props t (hsex t ht)).2.2
  have hatob : B64.atobBytes (GmailJS.padEquals
        ((GmailJS.encodeBase64Url s).map GmailJS.b64urlUnsub))
      = some (B64.utf8Encode (s.map Char.toNat)) := by
    rw [hmapsub]
    unfold GmailJS.padEquals B64.atobBytes
    rw [List.filter_append, List.filter_eq_self.mpr hne,
      List.filter_eq_nil_iff.mpr
        (fun x hx => by rw [List.eq_of_mem_replicate hx]; simp),
      List.append_nil, charsToSextets_map _ hsex, Option.map_some',
      b64Decode_b64Encode _ hbytes]
  unfold GmailJS.decodeBase64Url
  rw [hatob]
  dsimp only
  rw [utf8Decode_utf8Encode (s.map Char.toNat) hcps]
  dsimp only
  rw [List.map_map]
  have hid : ∀ x ∈ s, (Char.ofNat ∘ Char.toNat) x = id x :=
    fun x _ => Char.ofNat_toNat x
  rw [List.map_congr_left hid, List.map_id]
